import Mathlib

/-!
Verification of the `ralph` harness core (src/ralph/models.py, src/ralph/harness.py)
as a shallow embedding in Lean 4.

External effects (subprocess execution of the agent, of verification commands,
of git, and wall-clock time) are modelled as explicit oracle inputs; persistence
(`save_prd`) is modelled as appending the saved document to a trace of snapshots.
-/

namespace Ralph

/-- `ItemState` from models.py: state of a work item. -/
inductive ItemState where
  | todo
  | doing
  | done
  | blocked
deriving DecidableEq, Repr

/-- `ItemStatus` from models.py; `datetime` timestamps are modelled as abstract
natural-number ticks, Python `int` as `Int`. -/
structure ItemStatus where
  state : ItemState := .todo
  attempts : Int := 0
  last_error : Option String := none
  done_at : Option Nat := none
deriving DecidableEq, Repr

/-- `WorkItem` from models.py. -/
structure WorkItem where
  id : String
  title : String := ""
  description : String := ""
  acceptance_criteria : List String := []
  files_hint : List String := []
  verify : Option (List String) := none
  status : ItemStatus := {}
deriving DecidableEq, Repr

/-- `ProjectMeta` from models.py. -/
structure ProjectMeta where
  name : String
  language : String := "unknown"
  default_branch : String := "main"
deriving DecidableEq, Repr

/-- `GlobalConfig` from models.py. -/
structure GlobalConfig where
  verify : List String := []
deriving DecidableEq, Repr

/-- `PRD` from models.py (the Backlog Document). -/
structure PRD where
  version : Int := 1
  project : ProjectMeta
  global_config : GlobalConfig := {}
  items : List WorkItem := []
deriving DecidableEq, Repr

/-- First element satisfying `p` together with its index (Python `for` scan). -/
def findFirst (p : α → Bool) : List α → Option (Nat × α)
  | [] => none
  | x :: xs =>
      if p x then some (0, x)
      else (findFirst p xs).map (fun r => (r.1 + 1, r.2))

def isDoing (it : WorkItem) : Bool := it.status.state == ItemState.doing

def isTodo (it : WorkItem) : Bool := it.status.state == ItemState.todo

/-- `PRD.get_next_item` from models.py: first `doing` item (resume) with
`is_resuming = True`, else first `todo` item with `False`, else `(None, False)`. -/
def PRD.get_next_item (prd : PRD) : Option WorkItem × Bool :=
  match findFirst isDoing prd.items with
  | some r => (some r.2, true)
  | none =>
      match findFirst isTodo prd.items with
      | some r => (some r.2, false)
      | none => (none, false)

/-- Index-level version of `PRD.get_next_item`, used by the loop embedding so
that the in-place mutation of the selected item can be expressed. -/
def PRD.next_idx (prd : PRD) : Option (Nat × Bool) :=
  match findFirst isDoing prd.items with
  | some r => some (r.1, true)
  | none =>
      match findFirst isTodo prd.items with
      | some r => some (r.1, false)
      | none => none

/-- `PRD.all_done` from models.py: every item is `done` or `blocked`. -/
def PRD.all_done (prd : PRD) : Bool :=
  prd.items.all (fun it =>
    it.status.state == ItemState.done || it.status.state == ItemState.blocked)

/-- Number of items in a given state (`PRD.count_by_state` from models.py,
specialised to the one state the loop consults). -/
def PRD.count_state (prd : PRD) (s : ItemState) : Nat :=
  (prd.items.filter (fun it => it.status.state == s)).length

/-- Python `s[:n]` on strings. -/
def pyTake (n : Nat) (s : String) : String := s.take n

/-- Python `s[-n:] if s else ""` on strings (tail of at most `n` characters). -/
def pyTail (n : Nat) (s : String) : String := s.drop (s.length - n)

/-- Outcome of executing one shell command (the `subprocess.run` layer is an
oracle: a normal completion with exit code and output, or a raised exception). -/
inductive ExecOutcome where
  | ok (returncode : Int) (stdout : String) (stderr : String)
  | exn (msg : String)
deriving DecidableEq, Repr

/-- One entry of the `results` list built by `run_verification`. -/
structure CmdResult where
  command : String
  passed : Bool
  returncode : Int
  stdout : String
  stderr : String
deriving DecidableEq, Repr

/-- The loop body of `run_verification` for one command: on normal completion,
`passed = (returncode == 0)` with output tails kept; on an exception, recorded
as failed with return code `-1` and the exception text as stderr. -/
def verifyStep (ex : String → ExecOutcome) (cmd : String) : CmdResult :=
  match ex cmd with
  | .ok rc out err =>
      { command := cmd, passed := rc == 0, returncode := rc,
        stdout := pyTail 2000 out, stderr := pyTail 2000 err }
  | .exn msg =>
      { command := cmd, passed := false, returncode := -1, stdout := "", stderr := msg }

/-- `run_verification` from harness.py: run every command in order, accumulate
per-command results and the conjunction of the pass flags. -/
def run_verification (ex : String → ExecOutcome) (commands : List String) :
    Bool × List CmdResult :=
  commands.foldl
    (fun acc cmd =>
      let r := verifyStep ex cmd
      (acc.1 && r.passed, acc.2 ++ [r]))
    (true, [])

/-- `item.verify or prd.global_config.verify`: Python `or` falls through on
`None` and on the empty list. -/
def effectiveVerify (it : WorkItem) (g : GlobalConfig) : List String :=
  match it.verify with
  | none => g.verify
  | some [] => g.verify
  | some cmds => cmds

/-- Replace the element at index `i` (in-place mutation of the selected item). -/
def modifyIdx (f : α → α) : Nat → List α → List α
  | _, [] => []
  | 0, x :: xs => f x :: xs
  | n + 1, x :: xs => x :: modifyIdx f n xs

/-- Apply `f` to the status of the item at index `i` of the document. -/
def setItemStatus (prd : PRD) (i : Nat) (f : ItemStatus → ItemStatus) : PRD :=
  { prd with items := modifyIdx (fun it => { it with status := f it.status }) i prd.items }

/-- `BLOCKED_THRESHOLD` from harness.py. -/
def BLOCKED_THRESHOLD : Int := 3

/-- The failure disposition shared by the agent-failure and verification-failure
branches of `run_loop`: record `last_error`, then `blocked` if
`attempts >= BLOCKED_THRESHOLD`, else back to `todo`. -/
def failItemStatus (err : String) (st : ItemStatus) : ItemStatus :=
  { st with
      last_error := some err,
      state := if st.attempts ≥ BLOCKED_THRESHOLD then ItemState.blocked else ItemState.todo }

/-- The success disposition of `run_loop`: `done`, stamp `done_at`, clear
`last_error`. -/
def doneItemStatus (now : Nat) (st : ItemStatus) : ItemStatus :=
  { st with state := ItemState.done, done_at := some now, last_error := none }

/-- Result of one pass of the `while` body of `run_loop`.

* `result`: `some code` when the body executed a `return code`, `none` when it
  reached the bottom (or `continue`) and loops again;
* `prd`: the document as the body leaves it (the last persisted state when a
  save happened);
* `saves`: every `save_prd` snapshot written during this pass, in order;
* `selected`: whether an item was selected (`iteration += 1` executed);
* `failed`: whether `failures += 1` executed;
* `commitResult`: `some b` when the commit collaborator was invoked and
  returned `b`, `none` when it was not invoked.
-/
structure StepOut where
  result : Option Int
  prd : PRD
  saves : List PRD
  selected : Bool
  failed : Bool
  commitResult : Option Bool
deriving Repr

/-- Mark the item at index `i` as `doing` and increment its attempts
(the fresh-start checkpoint of `run_loop`). -/
def markDoing (prd : PRD) (i : Nat) : PRD :=
  setItemStatus prd i (fun st =>
    { st with state := ItemState.doing, attempts := st.attempts + 1 })

/-- The shared tail of the two failure branches of the loop body: apply the
blocked-threshold disposition to item `i`, persist, continue. -/
def failStep (prd1 : PRD) (i : Nat) (saves1 : List PRD) (err : String) : StepOut :=
  let prd2 := setItemStatus prd1 i (failItemStatus err)
  { result := none, prd := prd2, saves := saves1 ++ [prd2],
    selected := true, failed := true, commitResult := none }

/-- The verification-passed branch of the loop body: mark item `i` done,
persist, then invoke the commit collaborator unless commits are disabled. -/
def succeedStep (prd1 : PRD) (i : Nat) (saves1 : List PRD) (now : Nat)
    (no_commit commit : Bool) : StepOut :=
  let prd2 := setItemStatus prd1 i (doneItemStatus now)
  { result := none, prd := prd2, saves := saves1 ++ [prd2],
    selected := true, failed := false,
    commitResult := if no_commit then none else some commit }

/-- The `error_summary` built from verification results (harness.py
lines 407-410): at most the first 3 failing commands, command text plus the
first 100 characters of stderr, joined by `"; "`. -/
def errorSummary (results : List CmdResult) : String :=
  String.intercalate "; "
    (((results.filter (fun r => !r.passed)).take 3).map
      (fun r => r.command ++ ": " ++ pyTake 100 r.stderr))

/-- One pass of the `while` body of `run_loop` (harness.py lines 285-424).
`agent` is the `(success, error)` pair of `run_agent`, `ex` the subprocess
oracle for verification commands, `commit` the return value of `git_commit`
if it were invoked, `now` the current timestamp. -/
def loop_step (prd : PRD) (agent : Bool × String) (ex : String → ExecOutcome)
    (commit : Bool) (now : Nat) (no_commit : Bool) : StepOut :=
  if prd.all_done then
    { result := some 0, prd := prd, saves := [], selected := false,
      failed := false, commitResult := none }
  else
    match prd.next_idx with
    | none =>
        { result := some (if prd.count_state ItemState.blocked == 0 then 0 else 1),
          prd := prd, saves := [], selected := false, failed := false,
          commitResult := none }
    | some (i, is_resuming) =>
        let prd1 := if is_resuming then prd else markDoing prd i
        let saves1 : List PRD := if is_resuming then [] else [prd1]
        if !agent.1 then
          failStep prd1 i saves1 ("Agent error: " ++ pyTake 500 agent.2)
        else
          let item1 := (prd1.items.getD i { id := "" })
          let verify_commands := effectiveVerify item1 prd1.global_config
          let vr :=
            if verify_commands.isEmpty then (true, ([] : List CmdResult))
            else run_verification ex verify_commands
          if vr.1 then
            succeedStep prd1 i saves1 now no_commit commit
          else
            failStep prd1 i saves1
              ("Verification failed: " ++ pyTake 500 (errorSummary vr.2))

/-- The external world of one run: per loop pass (indexed by the value of
`iteration` at the top of the pass), the agent outcome, the subprocess oracle
for verification commands, the `git_commit` outcome, and the clock. -/
structure LoopEnv where
  agent : Int → Bool × String
  ex : Int → String → ExecOutcome
  commit : Int → Bool
  now : Int → Nat

/-- The code after the `while` loop of `run_loop` (harness.py lines 427-443):
`1` if the failure budget is spent, else `1` if the iteration budget is spent,
else `0`. -/
def run_loop_post (maxIter maxFail iteration failures : Int) : Int :=
  if failures ≥ maxFail then 1
  else if iteration ≥ maxIter then 1
  else 0

/-- The `while` loop of `run_loop`. Returns the exit code together with the
trace of every `save_prd` snapshot the run wrote. The document is reloaded at
the top of each pass; absent external edits this is the last state written. -/
def run_loop_aux (env : LoopEnv) (maxIter maxFail : Int) (no_commit : Bool)
    (prd : PRD) (iteration failures : Int) (saves : List PRD) : Int × List PRD :=
  if h : iteration < maxIter ∧ failures < maxFail then
    let st := loop_step prd (env.agent iteration) (env.ex iteration)
      (env.commit iteration) (env.now iteration) no_commit
    match st.result with
    | some code => (code, saves ++ st.saves)
    | none =>
        run_loop_aux env maxIter maxFail no_commit st.prd (iteration + 1)
          (failures + (if st.failed then 1 else 0)) (saves ++ st.saves)
  else
    (run_loop_post maxIter maxFail iteration failures, saves)
termination_by (maxIter - iteration).toNat
decreasing_by
  omega

/-- Result of `load_prd`: the parsed document, or a structural error (file
missing, malformed JSON, schema violation). -/
inductive LoadResult where
  | ok (prd : PRD)
  | err
deriving Repr

/-- `run_loop` from harness.py: startup checks (git repository present,
document loads) then the main loop starting at `iteration = 0`,
`failures = 0`. Returns the exit code and the persisted-snapshot trace. -/
def run_loop (is_git : Bool) (load : LoadResult) (env : LoopEnv)
    (maxIter maxFail : Int) (no_commit : Bool) : Int × List PRD :=
  if !is_git then (1, [])
  else
    match load with
    | .err => (1, [])
    | .ok prd => run_loop_aux env maxIter maxFail no_commit prd 0 0 []

/-- `x` is the first element of `l` satisfying `p`, at index `i`: it is at
index `i`, satisfies `p`, and every element before it fails `p`. -/
def IsFirstWith (p : α → Bool) (l : List α) (i : Nat) (x : α) : Prop :=
  l.get? i = some x ∧ p x = true ∧ ∀ y ∈ l.take i, p y = false

instance IsFirstWith.instDecidable [DecidableEq α] (p : α → Bool) (l : List α)
    (i : Nat) (x : α) : Decidable (IsFirstWith p l i x) := by
  unfold IsFirstWith
  infer_instance

/-- The spec invariant `done_at is not None iff state == done` for one status
record. -/
def statusConsistent (st : ItemStatus) : Bool :=
  st.done_at.isSome == (st.state == ItemState.done)

/-- The spec invariant `done_at is not None iff state == done` over a whole
document. -/
def doneAtConsistent (prd : PRD) : Bool :=
  prd.items.all (fun it => statusConsistent it.status)

/-! ### Concrete fixtures used by witnesses and counterexamples -/

def projW : ProjectMeta := { name := "p" }

def itemDoneW : WorkItem :=
  { id := "a", status := { state := .done, done_at := some 5 } }

def itemDoingW : WorkItem :=
  { id := "b", status := { state := .doing, attempts := 1 } }

def itemTodoW : WorkItem := { id := "c" }

def prdW : PRD := { project := projW, items := [itemDoneW, itemDoingW, itemTodoW] }

/-- A document whose only item is `blocked`. -/
def prdBlockedW : PRD :=
  { project := projW,
    items := [{ id := "a", status := { state := .blocked, attempts := 3 } }] }

/-- A document whose only item is `todo`. -/
def prdOneTodoW : PRD := { project := projW, items := [{ id := "a" }] }

/-- A document whose only item is `done`. -/
def prdAllDoneW : PRD :=
  { project := projW,
    items := [{ id := "a", status := { state := .done, done_at := some 3 } }] }

/-- A subprocess oracle where `"false"` exits 1 and anything else raises. -/
def exW : String → ExecOutcome := fun c =>
  if c = "false" then .ok 1 "" "boom" else .exn "not found"

/-- An environment whose collaborators all succeed. -/
def envOk : LoopEnv :=
  { agent := fun _ => (true, ""), ex := fun _ _ => .ok 0 "" "",
    commit := fun _ => true, now := fun _ => 7 }

/-- An environment whose agent always fails. -/
def envAgentFail : LoopEnv :=
  { agent := fun _ => (false, "boom"), ex := fun _ _ => .ok 0 "" "",
    commit := fun _ => true, now := fun _ => 7 }

/-! ### Selector lemmas -/

theorem findFirst_none_iff (p : α → Bool) (l : List α) :
    findFirst p l = none ↔ ∀ x ∈ l, p x = false := by
  induction l with
  | nil => simp [findFirst]
  | cons a l ih =>
      by_cases ha : p a
      · simp [findFirst, ha]
      · simp only [findFirst, ha, if_neg, Bool.false_eq_true, not_false_iff,
          ite_false, Option.map_eq_none', List.mem_cons]
        constructor
        · intro h x hx
          rcases hx with rfl | hx
          · simpa using ha
          · exact (ih.mp h) x hx
        · intro h
          exact ih.mpr (fun x hx => h x (Or.inr hx))

theorem findFirst_sound (p : α → Bool) (l : List α) (i : Nat) (x : α)
    (h : findFirst p l = some (i, x)) : IsFirstWith p l i x := by
  induction l generalizing i with
  | nil => simp [findFirst] at h
  | cons a l ih =>
      by_cases ha : p a
      · simp only [findFirst, ha, ite_true, Option.some.injEq, Prod.mk.injEq] at h
        obtain ⟨rfl, rfl⟩ := h
        exact ⟨rfl, ha, by simp⟩
      · simp only [findFirst, ha, Bool.false_eq_true, ite_false,
          Option.map_eq_some'] at h
        obtain ⟨⟨i', x'⟩, hfind, heq⟩ := h
        obtain ⟨rfl, rfl⟩ : i = i' + 1 ∧ x = x' := by
          constructor <;> · injection heq with h1; simp_all
        obtain ⟨hget, hp, hbefore⟩ := ih i' hfind
        refine ⟨by simpa using hget, hp, ?_⟩
        intro y hy
        simp only [List.take_succ_cons, List.mem_cons] at hy
        rcases hy with rfl | hy
        · simpa using ha
        · exact hbefore y hy

theorem findFirst_complete (p : α → Bool) (l : List α) (i : Nat) (x : α)
    (h : IsFirstWith p l i x) : findFirst p l = some (i, x) := by
  induction l generalizing i with
  | nil => simp [IsFirstWith, List.get?] at h
  | cons a l ih =>
      obtain ⟨hget, hp, hbefore⟩ := h
      match i with
      | 0 =>
          simp only [List.get?_cons_zero, Option.some.injEq] at hget
          subst hget
          simp [findFirst, hp]
      | i + 1 =>
          have ha : p a = false := hbefore a (by simp)
          simp only [List.get?_cons_succ] at hget
          have : findFirst p l = some (i, x) :=
            ih i ⟨hget, hp, fun y hy => hbefore y (by simp [hy])⟩
          simp [findFirst, ha, this]

/-! ### Helper lemmas about `modifyIdx` and the index-level selector -/

theorem modifyIdx_get?_same (f : α → α) (i : Nat) (l : List α) :
    (modifyIdx f i l).get? i = (l.get? i).map f := by
  induction l generalizing i with
  | nil => simp [modifyIdx]
  | cons a l ih =>
      match i with
      | 0 => simp [modifyIdx]
      | i + 1 => simpa [modifyIdx] using ih i

theorem modifyIdx_get?_ne (f : α → α) (i j : Nat) (l : List α) (h : j ≠ i) :
    (modifyIdx f i l).get? j = l.get? j := by
  induction l generalizing i j with
  | nil => simp [modifyIdx]
  | cons a l ih =>
      match i, j with
      | 0, 0 => omega
      | 0, j + 1 => simp [modifyIdx]
      | i + 1, 0 => simp [modifyIdx]
      | i + 1, j + 1 => simpa [modifyIdx] using ih i j (by omega)

theorem modifyIdx_length (f : α → α) (i : Nat) (l : List α) :
    (modifyIdx f i l).length = l.length := by
  induction l generalizing i with
  | nil => simp [modifyIdx]
  | cons a l ih =>
      match i with
      | 0 => simp [modifyIdx]
      | i + 1 => simpa [modifyIdx] using ih i

/-- `next_idx` and `get_next_item` agree: same resume flag, and the item found
at the returned index is the returned item. -/
theorem next_idx_sound (prd : PRD) (i : Nat) (r : Bool)
    (h : prd.next_idx = some (i, r)) :
    ∃ x, prd.items.get? i = some x ∧ prd.get_next_item = (some x, r) ∧
      (if r then isDoing x else isTodo x) = true := by
  unfold PRD.next_idx at h
  unfold PRD.get_next_item
  cases hd : findFirst isDoing prd.items with
  | some p =>
      rw [hd] at h
      simp only [Option.some.injEq, Prod.mk.injEq] at h
      obtain ⟨rfl, rfl⟩ := h
      obtain ⟨hget, hp, _⟩ := findFirst_sound _ _ _ _ hd
      exact ⟨p.2, hget, by simp [hd], by simpa using hp⟩
  | none =>
      rw [hd] at h
      cases ht : findFirst isTodo prd.items with
      | some p =>
          rw [ht] at h
          simp only [Option.some.injEq, Prod.mk.injEq] at h
          obtain ⟨rfl, rfl⟩ := h
          obtain ⟨hget, hp, _⟩ := findFirst_sound _ _ _ _ ht
          exact ⟨p.2, hget, by simp [hd, ht], by simpa using hp⟩
      | none => rw [ht] at h; exact absurd h (by simp)

/-- A fresh (non-resuming) selection only happens when no item is `doing`. -/
theorem next_idx_fresh_no_doing (prd : PRD) (i : Nat)
    (h : prd.next_idx = some (i, false)) :
    ∀ it ∈ prd.items, isDoing it = false := by
  unfold PRD.next_idx at h
  cases hd : findFirst isDoing prd.items with
  | some p =>
      rw [hd] at h
      simp only [Option.some.injEq, Prod.mk.injEq] at h
      exact absurd h.2 (by simp)
  | none =>
      exact fun it hit => (findFirst_none_iff _ _).mp hd it hit

/-- If the document is not all done, the selector finds an item: the
`item is None` branch of `run_loop` is unreachable. -/
theorem next_idx_isSome_of_not_all_done (prd : PRD)
    (h : prd.all_done = false) : prd.next_idx.isSome = true := by
  unfold PRD.all_done at h
  unfold PRD.next_idx
  cases hd : findFirst isDoing prd.items with
  | some p => simp
  | none =>
      cases ht : findFirst isTodo prd.items with
      | some p => simp
      | none =>
          exfalso
          have hno_d := (findFirst_none_iff _ _).mp hd
          have hno_t := (findFirst_none_iff _ _).mp ht
          rw [List.all_eq_false] at h
          obtain ⟨it, hit, hst⟩ := h
          have h1 := hno_d it hit
          have h2 := hno_t it hit
          simp only [isDoing, isTodo, beq_eq_false_iff_ne, ne_eq] at h1 h2
          cases hs : it.status.state <;> simp_all

/-- `all_done` is false whenever the selector returns an item. -/
theorem all_done_false_of_next_idx (prd : PRD) (i : Nat) (r : Bool)
    (h : prd.next_idx = some (i, r)) : prd.all_done = false := by
  by_contra hc
  have hdone : prd.all_done = true := by
    cases hval : prd.all_done
    · exact absurd hval hc
    · rfl
  obtain ⟨x, hget, _, hp⟩ := next_idx_sound prd i r h
  have hx_mem : x ∈ prd.items := List.get?_mem hget
  unfold PRD.all_done at hdone
  simp only [List.all_eq_true, Bool.or_eq_true, beq_iff_eq] at hdone
  have := hdone x hx_mem
  cases r <;> simp only [isDoing, isTodo, if_true, if_false, beq_iff_eq] at hp <;>
    rcases this with h1 | h1 <;> simp [h1] at hp

/-! ### Lemmas about the loop body -/

theorem setItemStatus_get?_same (prd : PRD) (i : Nat) (f : ItemStatus → ItemStatus) :
    (setItemStatus prd i f).items.get? i =
      (prd.items.get? i).map (fun it => { it with status := f it.status }) := by
  unfold setItemStatus
  exact modifyIdx_get?_same _ i prd.items

theorem setItemStatus_get?_ne (prd : PRD) (i j : Nat) (f : ItemStatus → ItemStatus)
    (h : j ≠ i) : (setItemStatus prd i f).items.get? j = prd.items.get? j := by
  unfold setItemStatus
  exact modifyIdx_get?_ne _ i j prd.items h

/-- Unfolding of `loop_step` in the case where the selector returns an item. -/
theorem loop_step_selected (prd : PRD) (agent : Bool × String)
    (ex : String → ExecOutcome) (commit : Bool) (now : Nat) (nc : Bool)
    (i : Nat) (r : Bool) (hsel : prd.next_idx = some (i, r)) :
    loop_step prd agent ex commit now nc =
      (let prd1 := if r then prd else markDoing prd i
       let saves1 : List PRD := if r then [] else [prd1]
       if !agent.1 then
         failStep prd1 i saves1 ("Agent error: " ++ pyTake 500 agent.2)
       else
         let vcs := effectiveVerify (prd1.items.getD i { id := "" }) prd1.global_config
         let vr := if vcs.isEmpty then (true, ([] : List CmdResult))
                   else run_verification ex vcs
         if vr.1 then succeedStep prd1 i saves1 now nc commit
         else failStep prd1 i saves1
           ("Verification failed: " ++ pyTake 500 (errorSummary vr.2))) := by
  have hdone := all_done_false_of_next_idx prd i r hsel
  simp only [loop_step, hdone, Bool.false_eq_true, if_false, hsel]

/-- `loop_step` when resuming a `doing` item: no mark, no checkpoint save. -/
theorem loop_step_resuming (prd : PRD) (agent : Bool × String)
    (ex : String → ExecOutcome) (commit : Bool) (now : Nat) (nc : Bool)
    (i : Nat) (hsel : prd.next_idx = some (i, true)) :
    loop_step prd agent ex commit now nc =
      (if !agent.1 then
         failStep prd i [] ("Agent error: " ++ pyTake 500 agent.2)
       else
         let vr := if (effectiveVerify (prd.items.getD i { id := "" })
                       prd.global_config).isEmpty
                   then (true, ([] : List CmdResult))
                   else run_verification ex
                     (effectiveVerify (prd.items.getD i { id := "" }) prd.global_config)
         if vr.1 then succeedStep prd i [] now nc commit
         else failStep prd i []
           ("Verification failed: " ++ pyTake 500 (errorSummary vr.2))) := by
  rw [loop_step_selected prd agent ex commit now nc i true hsel]
  simp only [eq_self_iff_true, if_true]

/-- `loop_step` when starting a `todo` item fresh: mark `doing`, increment
attempts, persist the checkpoint first. -/
theorem loop_step_fresh (prd : PRD) (agent : Bool × String)
    (ex : String → ExecOutcome) (commit : Bool) (now : Nat) (nc : Bool)
    (i : Nat) (hsel : prd.next_idx = some (i, false)) :
    loop_step prd agent ex commit now nc =
      (let prd1 := markDoing prd i
       if !agent.1 then
         failStep prd1 i [prd1] ("Agent error: " ++ pyTake 500 agent.2)
       else
         let vr := if (effectiveVerify (prd1.items.getD i { id := "" })
                       prd1.global_config).isEmpty
                   then (true, ([] : List CmdResult))
                   else run_verification ex
                     (effectiveVerify (prd1.items.getD i { id := "" }) prd1.global_config)
         if vr.1 then succeedStep prd1 i [prd1] now nc commit
         else failStep prd1 i [prd1]
           ("Verification failed: " ++ pyTake 500 (errorSummary vr.2))) := by
  rw [loop_step_selected prd agent ex commit now nc i false hsel]
  simp only [Bool.false_eq_true, if_false]

theorem markDoing_get?_same (prd : PRD) (i : Nat) (x : WorkItem)
    (hx : prd.items.get? i = some x) :
    (markDoing prd i).items.get? i =
      some { x with status :=
        { x.status with state := ItemState.doing, attempts := x.status.attempts + 1 } } := by
  rw [markDoing, setItemStatus_get?_same, hx]
  rfl

theorem failStep_prd_get? (prd1 : PRD) (i : Nat) (saves1 : List PRD) (err : String)
    (x1 : WorkItem) (hx1 : prd1.items.get? i = some x1) :
    (failStep prd1 i saves1 err).prd.items.get? i =
      some { x1 with status := failItemStatus err x1.status } := by
  show (setItemStatus prd1 i (failItemStatus err)).items.get? i = _
  rw [setItemStatus_get?_same, hx1]
  rfl

/-! ### C3: selector -/

/-- C3: `get_next_item` returns the first item in document order whose state is
`doing`, paired with `is_resuming = true`, when such an item exists; otherwise
the first item whose state is `todo`, paired with `is_resuming = false`; and
when neither a `doing` nor a `todo` item exists it returns no item. -/
theorem claim_C3_selector (prd : PRD) :
    (∀ i x, IsFirstWith isDoing prd.items i x → prd.get_next_item = (some x, true)) ∧
    (∀ i x, (∀ it ∈ prd.items, isDoing it = false) →
        IsFirstWith isTodo prd.items i x → prd.get_next_item = (some x, false)) ∧
    ((∀ it ∈ prd.items, isDoing it = false ∧ isTodo it = false) →
        prd.get_next_item = (none, false)) := by
  refine ⟨?_, ?_, ?_⟩
  · intro i x hfirst
    have h := findFirst_complete _ _ _ _ hfirst
    simp [PRD.get_next_item, h]
  · intro i x hnone hfirst
    have h1 : findFirst isDoing prd.items = none := (findFirst_none_iff _ _).mpr hnone
    have h2 := findFirst_complete _ _ _ _ hfirst
    simp [PRD.get_next_item, h1, h2]
  · intro hnone
    have h1 : findFirst isDoing prd.items = none :=
      (findFirst_none_iff _ _).mpr (fun x hx => (hnone x hx).1)
    have h2 : findFirst isTodo prd.items = none :=
      (findFirst_none_iff _ _).mpr (fun x hx => (hnone x hx).2)
    simp [PRD.get_next_item, h1, h2]

/-- Witness for C3 on a concrete document: the `doing` item at index 1 is
selected with `is_resuming = true`. -/
theorem claim_C3_selector_witness :
    prdW.get_next_item = (some itemDoingW, true) :=
  (claim_C3_selector prdW).1 1 itemDoingW (by decide)

/-! ### C1: blocked-threshold policy -/

/-- C1: on any failure outcome of a loop pass (agent invocation failure or
verification failure), the selected item's state is set to `blocked` iff its
`attempts` counter at that moment (after the fresh-start increment, if any;
the failure handler itself never changes `attempts`) is at least
`BLOCKED_THRESHOLD = 3`, and otherwise set back to `todo`. -/
theorem claim_C1_blocked_threshold (prd : PRD) (agent : Bool × String)
    (ex : String → ExecOutcome) (commit : Bool) (now : Nat) (nc : Bool)
    (i : Nat) (r : Bool) (x : WorkItem)
    (hsel : prd.next_idx = some (i, r))
    (hx : prd.items.get? i = some x)
    (hfail : (loop_step prd agent ex commit now nc).failed = true) :
    ∃ y, (loop_step prd agent ex commit now nc).prd.items.get? i = some y ∧
      y.status.attempts = x.status.attempts + (if r then 0 else 1) ∧
      y.status.state =
        (if BLOCKED_THRESHOLD ≤ y.status.attempts then ItemState.blocked
         else ItemState.todo) := by
  cases r with
  | true =>
      rw [loop_step_resuming prd agent ex commit now nc i hsel] at hfail ⊢
      cases hag : agent.1 with
      | false =>
          simp only [hag, Bool.not_false, if_true] at hfail ⊢
          exact ⟨_, failStep_prd_get? _ _ _ _ _ hx, by simp [failItemStatus],
            by simp [failItemStatus, ge_iff_le]⟩
      | true =>
          simp only [hag, Bool.not_true, Bool.false_eq_true, if_false] at hfail ⊢
          generalize (if (effectiveVerify (prd.items.getD i { id := "" })
              prd.global_config).isEmpty = true then (true, ([] : List CmdResult))
              else run_verification ex
                (effectiveVerify (prd.items.getD i { id := "" }) prd.global_config)) = VR
            at hfail ⊢
          cases hv : VR.1 with
          | true =>
              rw [hv] at hfail
              exact absurd hfail (by simp [succeedStep])
          | false =>
              rw [hv] at hfail
              simp only [Bool.false_eq_true, if_false, eq_self_iff_true, if_true] at hfail ⊢
              exact ⟨_, failStep_prd_get? _ _ _ _ _ hx, by simp [failItemStatus],
                by simp [failItemStatus, ge_iff_le]⟩
  | false =>
      rw [loop_step_fresh prd agent ex commit now nc i hsel] at hfail ⊢
      have hx1 := markDoing_get?_same prd i x hx
      cases hag : agent.1 with
      | false =>
          simp only [hag, Bool.not_false, if_true] at hfail ⊢
          exact ⟨_, failStep_prd_get? _ _ _ _ _ hx1, by simp [failItemStatus],
            by simp [failItemStatus, ge_iff_le]⟩
      | true =>
          simp only [hag, Bool.not_true, Bool.false_eq_true, if_false] at hfail ⊢
          generalize (if (effectiveVerify ((markDoing prd i).items.getD i { id := "" })
              (markDoing prd i).global_config).isEmpty = true
              then (true, ([] : List CmdResult))
              else run_verification ex
                (effectiveVerify ((markDoing prd i).items.getD i { id := "" })
                  (markDoing prd i).global_config)) = VR
            at hfail ⊢
          cases hv : VR.1 with
          | true =>
              rw [hv] at hfail
              exact absurd hfail (by simp [succeedStep])
          | false =>
              rw [hv] at hfail
              simp only [Bool.false_eq_true, if_false, eq_self_iff_true, if_true] at hfail ⊢
              exact ⟨_, failStep_prd_get? _ _ _ _ _ hx1, by simp [failItemStatus],
                by simp [failItemStatus, ge_iff_le]⟩

/-- Witness for C1: one concrete fresh-start pass whose agent fails while the
item had already used 2 attempts; the item ends `blocked` with 3 attempts. -/
theorem claim_C1_blocked_threshold_witness :
    ∃ y, (loop_step { project := projW, items := [{ id := "a", status := { attempts := 2 } }] }
        (false, "boom") (fun _ => .ok 0 "" "") true 7 false).prd.items.get? 0 = some y ∧
      y.status.attempts = (2 : Int) + (if false then 0 else 1) ∧
      y.status.state =
        (if BLOCKED_THRESHOLD ≤ y.status.attempts then ItemState.blocked
         else ItemState.todo) :=
  claim_C1_blocked_threshold
    { project := projW, items := [{ id := "a", status := { attempts := 2 } }] }
    (false, "boom") (fun _ => .ok 0 "" "") true 7 false 0 false
    { id := "a", status := { attempts := 2 } }
    (by decide) (by decide) (by decide)

/-! ### C4: attempts accounting and the crash-safety checkpoint -/

/-- C4: in a loop pass that selects an item: if the item is resumed, its
attempts counter is not modified by the pass; if it is started fresh, the
first persisted snapshot of the pass — written identically whatever the agent,
verification, or commit collaborators later do, i.e. before the agent is
invoked — is the document with the item set to `doing` and its attempts
incremented by exactly one. -/
theorem claim_C4_attempts_checkpoint (prd : PRD) (agent : Bool × String)
    (ex : String → ExecOutcome) (commit : Bool) (now : Nat) (nc : Bool)
    (i : Nat) (r : Bool) (x : WorkItem)
    (hsel : prd.next_idx = some (i, r))
    (hx : prd.items.get? i = some x) :
    (r = true →
      ∃ y, (loop_step prd agent ex commit now nc).prd.items.get? i = some y ∧
        y.status.attempts = x.status.attempts) ∧
    (r = false →
      (∀ (agent' : Bool × String) (ex' : String → ExecOutcome)
         (commit' : Bool) (now' : Nat) (nc' : Bool),
         (loop_step prd agent' ex' commit' now' nc').saves.head? =
           some (markDoing prd i)) ∧
      (markDoing prd i).items.get? i = some { x with status :=
        { x.status with state := ItemState.doing, attempts := x.status.attempts + 1 } }) := by
  constructor
  · rintro rfl
    rw [loop_step_resuming prd agent ex commit now nc i hsel]
    cases hag : agent.1 with
    | false =>
        simp only [hag, Bool.not_false, if_true]
        exact ⟨_, failStep_prd_get? _ _ _ _ _ hx, by simp [failItemStatus]⟩
    | true =>
        simp only [hag, Bool.not_true, Bool.false_eq_true, if_false]
        generalize (if (effectiveVerify (prd.items.getD i { id := "" })
            prd.global_config).isEmpty = true then (true, ([] : List CmdResult))
            else run_verification ex
              (effectiveVerify (prd.items.getD i { id := "" }) prd.global_config)) = VR
        cases hv : VR.1 with
        | true =>
            simp only [eq_self_iff_true, if_true]
            refine ⟨{ x with status := doneItemStatus now x.status }, ?_, ?_⟩
            · show (setItemStatus prd i (doneItemStatus now)).items.get? i = _
              rw [setItemStatus_get?_same, hx]
              rfl
            · simp [doneItemStatus]
        | false =>
            simp only [Bool.false_eq_true, if_false]
            exact ⟨_, failStep_prd_get? _ _ _ _ _ hx, by simp [failItemStatus]⟩
  · rintro rfl
    refine ⟨?_, markDoing_get?_same prd i x hx⟩
    intro agent' ex' commit' now' nc'
    rw [loop_step_fresh prd agent' ex' commit' now' nc' i hsel]
    cases hag : agent'.1 with
    | false => simp [hag, failStep]
    | true =>
        simp only [hag, Bool.not_true, Bool.false_eq_true, if_false]
        split <;> split <;> simp [succeedStep, failStep]

/-- Witness for C4: a fresh start on a concrete one-item document writes the
marked document as the first snapshot of the pass. -/
theorem claim_C4_attempts_checkpoint_witness :
    (loop_step prdOneTodoW (true, "") (fun _ => .ok 0 "" "") true 7 false).saves.head? =
      some (markDoing prdOneTodoW 0) :=
  ((claim_C4_attempts_checkpoint prdOneTodoW (true, "") (fun _ => .ok 0 "" "") true 7 false
      0 false { id := "a" } (by decide) (by decide)).2 rfl).1
    (true, "") (fun _ => .ok 0 "" "") true 7 false

/-! ### Shape of one loop pass, and preservation of invariants over a run -/

theorem mem_modifyIdx (f : α → α) (i : Nat) (l : List α) (y : α)
    (hy : y ∈ modifyIdx f i l) : y ∈ l ∨ ∃ x, l.get? i = some x ∧ y = f x := by
  induction l generalizing i with
  | nil => simp [modifyIdx] at hy
  | cons a l ih =>
      match i with
      | 0 =>
          simp only [modifyIdx, List.mem_cons] at hy
          rcases hy with rfl | hy
          · exact Or.inr ⟨a, rfl, rfl⟩
          · exact Or.inl (List.mem_cons_of_mem _ hy)
      | i + 1 =>
          simp only [modifyIdx, List.mem_cons] at hy
          rcases hy with rfl | hy
          · exact Or.inl (List.mem_cons_self _ _)
          · rcases ih i hy with h | ⟨x, hx, rfl⟩
            · exact Or.inl (List.mem_cons_of_mem _ h)
            · exact Or.inr ⟨x, by simpa using hx, rfl⟩

theorem countP_modifyIdx (p : α → Bool) (f : α → α) (i : Nat) (l : List α) (x : α)
    (hx : l.get? i = some x) :
    (modifyIdx f i l).countP p + (if p x then 1 else 0) =
      l.countP p + (if p (f x) then 1 else 0) := by
  induction l generalizing i with
  | nil => simp [List.get?] at hx
  | cons a l ih =>
      match i with
      | 0 =>
          simp only [List.get?_cons_zero, Option.some.injEq] at hx
          subst hx
          simp only [modifyIdx, List.countP_cons]
          omega
      | i + 1 =>
          simp only [List.get?_cons_succ] at hx
          simp only [modifyIdx, List.countP_cons]
          have := ih i hx
          omega

/-- `count_state` through a status update of the item at index `i`. -/
theorem count_state_setItemStatus (p : PRD) (i : Nat) (f : ItemStatus → ItemStatus)
    (s : ItemState) (x : WorkItem) (hx : p.items.get? i = some x) :
    (setItemStatus p i f).count_state s + (if x.status.state == s then 1 else 0) =
      p.count_state s + (if (f x.status).state == s then 1 else 0) := by
  have h := countP_modifyIdx (fun it => it.status.state == s)
    (fun it => { it with status := f it.status }) i p.items x hx
  simp only [PRD.count_state, setItemStatus, ← List.countP_eq_length_filter]
  simpa using h

theorem count_state_eq_zero (p : PRD) (s : ItemState)
    (h : ∀ it ∈ p.items, (it.status.state == s) = false) :
    p.count_state s = 0 := by
  simp only [PRD.count_state, List.length_eq_zero, List.filter_eq_nil_iff]
  intro it hit
  simp [h it hit]

/-- `all`-style invariants of item statuses through `setItemStatus`. -/
theorem all_setItemStatus (Q : ItemStatus → Bool) (p : PRD) (i : Nat)
    (f : ItemStatus → ItemStatus)
    (hp : p.items.all (fun it => Q it.status) = true)
    (hf : ∀ x, p.items.get? i = some x → Q (f x.status) = true) :
    (setItemStatus p i f).items.all (fun it => Q it.status) = true := by
  rw [List.all_eq_true] at hp ⊢
  intro y hy
  rcases mem_modifyIdx _ i p.items y hy with h | ⟨x, hx, rfl⟩
  · exact hp y h
  · exact hf x hx

/-- Every pass of the loop either writes no snapshot and leaves the document
unchanged, or selects item `i` and writes (fresh-start checkpoint when not
resuming, then) the final disposition of item `i`: either the done disposition
or the blocked-threshold failure disposition. -/
theorem loop_step_shape (prd : PRD) (agent : Bool × String)
    (ex : String → ExecOutcome) (commit : Bool) (now : Nat) (nc : Bool) :
    ((loop_step prd agent ex commit now nc).saves = [] ∧
     (loop_step prd agent ex commit now nc).prd = prd) ∨
    (∃ i r g, prd.next_idx = some (i, r) ∧
      (g = doneItemStatus now ∨ ∃ err, g = failItemStatus err) ∧
      (loop_step prd agent ex commit now nc).prd =
        setItemStatus (if r then prd else markDoing prd i) i g ∧
      (loop_step prd agent ex commit now nc).saves =
        (if r then [] else [markDoing prd i]) ++
          [(loop_step prd agent ex commit now nc).prd]) := by
  cases hd : prd.all_done with
  | true => left; simp [loop_step, hd]
  | false =>
      cases hsel : prd.next_idx with
      | none => left; simp [loop_step, hd, hsel]
      | some pr =>
          obtain ⟨i, r⟩ := pr
          right
          cases r with
          | true =>
              rw [loop_step_resuming prd agent ex commit now nc i hsel]
              cases hag : agent.1 with
              | false =>
                  simp only [hag, Bool.not_false, if_true]
                  exact ⟨i, true, failItemStatus _, rfl, Or.inr ⟨_, rfl⟩, rfl, rfl⟩
              | true =>
                  simp only [hag, Bool.not_true, Bool.false_eq_true, if_false]
                  generalize (if (effectiveVerify (prd.items.getD i { id := "" })
                      prd.global_config).isEmpty = true then (true, ([] : List CmdResult))
                      else run_verification ex
                        (effectiveVerify (prd.items.getD i { id := "" })
                          prd.global_config)) = VR
                  cases hv : VR.1 with
                  | true =>
                      simp only [eq_self_iff_true, if_true]
                      exact ⟨i, true, doneItemStatus now, rfl, Or.inl rfl, rfl, rfl⟩
                  | false =>
                      simp only [Bool.false_eq_true, if_false]
                      exact ⟨i, true, failItemStatus _, rfl, Or.inr ⟨_, rfl⟩, rfl, rfl⟩
          | false =>
              rw [loop_step_fresh prd agent ex commit now nc i hsel]
              cases hag : agent.1 with
              | false =>
                  simp only [hag, Bool.not_false, if_true]
                  exact ⟨i, false, failItemStatus _, rfl, Or.inr ⟨_, rfl⟩, rfl, rfl⟩
              | true =>
                  simp only [hag, Bool.not_true, Bool.false_eq_true, if_false]
                  generalize (if (effectiveVerify ((markDoing prd i).items.getD i
                      { id := "" }) (markDoing prd i).global_config).isEmpty = true
                      then (true, ([] : List CmdResult))
                      else run_verification ex
                        (effectiveVerify ((markDoing prd i).items.getD i { id := "" })
                          (markDoing prd i).global_config)) = VR
                  cases hv : VR.1 with
                  | true =>
                      simp only [eq_self_iff_true, if_true]
                      exact ⟨i, false, doneItemStatus now, rfl, Or.inl rfl, rfl, rfl⟩
                  | false =>
                      simp only [Bool.false_eq_true, if_false]
                      exact ⟨i, false, failItemStatus _, rfl, Or.inr ⟨_, rfl⟩, rfl, rfl⟩

/-- A document-level property that holds of the loaded document and is
preserved by every loop pass (both for written snapshots and for the carried
document) holds of every snapshot a whole run writes. -/
theorem run_loop_aux_saves_pres (P : PRD → Prop)
    (hstep : ∀ (q : PRD) (agent : Bool × String) (ex : String → ExecOutcome)
      (commit : Bool) (now : Nat) (ncc : Bool), P q →
      (∀ s ∈ (loop_step q agent ex commit now ncc).saves, P s) ∧
        P (loop_step q agent ex commit now ncc).prd)
    (env : LoopEnv) (maxIter maxFail : Int) (nc : Bool) (prd : PRD)
    (iteration failures : Int) (saves : List PRD)
    (hP : P prd) (hsaves : ∀ s ∈ saves, P s) :
    ∀ s ∈ (run_loop_aux env maxIter maxFail nc prd iteration failures saves).2, P s := by
  rw [run_loop_aux]
  split
  · rename_i hguard
    cases hres : (loop_step prd (env.agent iteration) (env.ex iteration)
        (env.commit iteration) (env.now iteration) nc).result with
    | some code =>
        simp only [hres]
        intro s hs
        rcases List.mem_append.mp hs with h | h
        · exact hsaves s h
        · exact (hstep prd _ _ _ _ _ hP).1 s h
    | none =>
        simp only [hres]
        exact run_loop_aux_saves_pres P hstep env maxIter maxFail nc _ _ _ _
          (hstep prd _ _ _ _ _ hP).2
          (fun s hs => (List.mem_append.mp hs).elim (hsaves s)
            ((hstep prd _ _ _ _ _ hP).1 s))
  · simpa using hsaves
termination_by (maxIter - iteration).toNat
decreasing_by omega

/-! ### C6: `done_at` iff `done` -/

theorem doneAt_none (st : ItemStatus) (h1 : statusConsistent st = true)
    (h2 : st.state ≠ ItemState.done) : st.done_at = none := by
  have h3 : (st.state == ItemState.done) = false := by simp [h2]
  rw [statusConsistent, h3] at h1
  have h4 : st.done_at.isSome = false := by simpa using h1
  cases hd : st.done_at with
  | none => rfl
  | some v => rw [hd] at h4; simp at h4

theorem statusConsistent_done (now : Nat) (st : ItemStatus) :
    statusConsistent (doneItemStatus now st) = true := rfl

theorem failItemStatus_state_ne_done (err : String) (st : ItemStatus) :
    ((failItemStatus err st).state == ItemState.done) = false := by
  rw [failItemStatus]
  simp only []
  split <;> rfl

theorem statusConsistent_fail (err : String) (st : ItemStatus)
    (h : st.done_at = none) : statusConsistent (failItemStatus err st) = true := by
  rw [statusConsistent, failItemStatus_state_ne_done]
  have hda : (failItemStatus err st).done_at = st.done_at := rfl
  rw [hda, h]
  rfl

/-- One loop pass preserves the `done_at iff done` invariant, both for every
snapshot it persists and for the document it carries forward. -/
theorem loop_step_preserves_doneAt (q : PRD) (agent : Bool × String)
    (ex : String → ExecOutcome) (commit : Bool) (now : Nat) (ncc : Bool)
    (hq : doneAtConsistent q = true) :
    (∀ s ∈ (loop_step q agent ex commit now ncc).saves, doneAtConsistent s = true) ∧
      doneAtConsistent (loop_step q agent ex commit now ncc).prd = true := by
  rcases loop_step_shape q agent ex commit now ncc with ⟨hs, hp⟩ |
    ⟨i, r, g, hsel, hg, hprd, hsaves⟩
  · rw [hs, hp]
    exact ⟨by simp, hq⟩
  · obtain ⟨x, hx, _, hpx⟩ := next_idx_sound q i r hsel
    have hxmem : x ∈ q.items := List.get?_mem hx
    have hxcons : statusConsistent x.status = true := by
      have hq' := hq
      rw [doneAtConsistent, List.all_eq_true] at hq'
      exact hq' x hxmem
    cases r with
    | true =>
        simp only [eq_self_iff_true, if_true] at hprd hsaves
        have hxdoing : x.status.state = ItemState.doing := by simpa [isDoing] using hpx
        have hnone : x.status.done_at = none :=
          doneAt_none _ hxcons (by rw [hxdoing]; decide)
        have hfinal : doneAtConsistent (loop_step q agent ex commit now ncc).prd = true := by
          rw [hprd, doneAtConsistent]
          apply all_setItemStatus _ _ _ _ hq
          intro x' hx'
          rw [hx] at hx'
          injection hx' with hx''
          subst hx''
          rcases hg with rfl | ⟨err, rfl⟩
          · exact statusConsistent_done now x.status
          · exact statusConsistent_fail err x.status hnone
        refine ⟨?_, hfinal⟩
        intro s hs
        rw [hsaves] at hs
        simp only [List.nil_append, List.mem_singleton] at hs
        rw [hs]
        exact hfinal
    | false =>
        simp only [Bool.false_eq_true, if_false] at hprd hsaves
        have hxtodo : x.status.state = ItemState.todo := by simpa [isTodo] using hpx
        have hnone : x.status.done_at = none :=
          doneAt_none _ hxcons (by rw [hxtodo]; decide)
        have hmark : doneAtConsistent (markDoing q i) = true := by
          rw [markDoing, doneAtConsistent]
          apply all_setItemStatus _ _ _ _ hq
          intro x' hx'
          rw [hx] at hx'
          injection hx' with hx''
          subst hx''
          rw [statusConsistent]
          simp [hnone]
        have hmark_get := markDoing_get?_same q i x hx
        have hfinal : doneAtConsistent (loop_step q agent ex commit now ncc).prd = true := by
          rw [hprd, doneAtConsistent]
          apply all_setItemStatus _ _ _ _ (by rw [doneAtConsistent] at hmark; exact hmark)
          intro x' hx'
          rw [markDoing] at hx'
          rw [markDoing] at hmark_get
          rw [hmark_get] at hx'
          injection hx' with hx''
          subst hx''
          rcases hg with rfl | ⟨err, rfl⟩
          · exact statusConsistent_done now _
          · exact statusConsistent_fail err _ hnone
        refine ⟨?_, hfinal⟩
        intro s hs
        rw [hsaves] at hs
        simp only [List.cons_append, List.nil_append, List.mem_cons,
          List.not_mem_nil, or_false] at hs
        rcases hs with rfl | rfl
        · exact hmark
        · exact hfinal

/-- C6: if the loaded document satisfies `done_at is not None iff state == done`
for every item, then every document state the harness loop persists (i.e. the
state after every status transition, each of which is immediately saved)
satisfies it as well. -/
theorem claim_C6_done_at_invariant (env : LoopEnv) (maxIter maxFail : Int)
    (nc : Bool) (prd : PRD) (hinv : doneAtConsistent prd = true) :
    ∀ q ∈ (run_loop true (.ok prd) env maxIter maxFail nc).2,
      doneAtConsistent q = true := by
  show ∀ q ∈ (run_loop_aux env maxIter maxFail nc prd 0 0 []).2, doneAtConsistent q = true
  exact run_loop_aux_saves_pres _
    (fun q a e c n ncc hq => loop_step_preserves_doneAt q a e c n ncc hq)
    env maxIter maxFail nc prd 0 0 [] hinv (by simp)

/-- A concrete run (one fresh item, everything succeeds, budget one iteration)
writes the fresh-start checkpoint into its persisted trace. -/
theorem mark_mem_trace :
    markDoing prdOneTodoW 0 ∈ (run_loop true (.ok prdOneTodoW) envOk 1 5 false).2 := by
  show markDoing prdOneTodoW 0 ∈ (run_loop_aux envOk 1 5 false prdOneTodoW 0 0 []).2
  rw [run_loop_aux]
  simp only [show ((0:Int) < 1 ∧ (0:Int) < 5) ↔ True by norm_num, dite_true]
  rw [run_loop_aux]
  simp [loop_step, PRD.all_done, PRD.next_idx, findFirst, prdOneTodoW, projW,
    isDoing, isTodo, envOk, effectiveVerify, succeedStep, markDoing, setItemStatus,
    modifyIdx, doneItemStatus, run_loop_post]

/-- Witness for C6 at a concrete run: the checkpoint snapshot of a fresh start
on a consistent document is itself consistent. -/
theorem claim_C6_done_at_invariant_witness :
    doneAtConsistent (markDoing prdOneTodoW 0) = true :=
  claim_C6_done_at_invariant envOk 1 5 false prdOneTodoW (by decide)
    (markDoing prdOneTodoW 0) mark_mem_trace

/-! ### C7: at most one `doing` item in every persisted state -/

theorem failItemStatus_state_ne_doing (err : String) (st : ItemStatus) :
    ((failItemStatus err st).state == ItemState.doing) = false := by
  rw [failItemStatus]
  simp only []
  split <;> rfl

/-- One loop pass preserves "at most one `doing` item", both for every snapshot
it persists and for the document it carries forward. -/
theorem loop_step_preserves_one_doing (q : PRD) (agent : Bool × String)
    (ex : String → ExecOutcome) (commit : Bool) (now : Nat) (ncc : Bool)
    (hq : q.count_state ItemState.doing ≤ 1) :
    (∀ s ∈ (loop_step q agent ex commit now ncc).saves,
        s.count_state ItemState.doing ≤ 1) ∧
      (loop_step q agent ex commit now ncc).prd.count_state ItemState.doing ≤ 1 := by
  rcases loop_step_shape q agent ex commit now ncc with ⟨hs, hp⟩ |
    ⟨i, r, g, hsel, hg, hprd, hsaves⟩
  · rw [hs, hp]
    exact ⟨by simp, hq⟩
  · obtain ⟨x, hx, _, hpx⟩ := next_idx_sound q i r hsel
    have hgnd : ∀ st : ItemStatus, ((g st).state == ItemState.doing) = false := by
      rcases hg with rfl | ⟨err, rfl⟩
      · intro st; rfl
      · intro st; exact failItemStatus_state_ne_doing err st
    cases r with
    | true =>
        simp only [eq_self_iff_true, if_true] at hprd hsaves
        have hxdoing : (x.status.state == ItemState.doing) = true := by
          simpa [isDoing] using hpx
        have hcount := count_state_setItemStatus q i g ItemState.doing x hx
        rw [hxdoing, hgnd x.status] at hcount
        simp only [if_true, Bool.false_eq_true, if_false] at hcount
        have hfinal : (loop_step q agent ex commit now ncc).prd.count_state
            ItemState.doing ≤ 1 := by
          rw [hprd]
          omega
        refine ⟨?_, hfinal⟩
        intro s hs
        rw [hsaves] at hs
        simp only [List.nil_append, List.mem_singleton] at hs
        rw [hs]
        exact hfinal
    | false =>
        simp only [Bool.false_eq_true, if_false] at hprd hsaves
        have hnd := next_idx_fresh_no_doing q i hsel
        have hq0 : q.count_state ItemState.doing = 0 :=
          count_state_eq_zero q _ (fun it hit => hnd it hit)
        have hcmark := count_state_setItemStatus q i
          (fun st => { st with state := ItemState.doing, attempts := st.attempts + 1 })
          ItemState.doing x hx
        have hxnd : (x.status.state == ItemState.doing) = false := hnd x (List.get?_mem hx)
        rw [hxnd] at hcmark
        simp only [Bool.false_eq_true, if_false, beq_self_eq_true, if_true] at hcmark
        have hmark1 : (markDoing q i).count_state ItemState.doing = 1 := by
          rw [markDoing]
          omega
        have hmark_get := markDoing_get?_same q i x hx
        have hcfin := count_state_setItemStatus (markDoing q i) i g ItemState.doing
          _ hmark_get
        rw [hgnd] at hcfin
        simp only [Bool.false_eq_true, if_false, beq_self_eq_true, if_true] at hcfin
        have hfinal : (loop_step q agent ex commit now ncc).prd.count_state
            ItemState.doing ≤ 1 := by
          rw [hprd]
          omega
        refine ⟨?_, hfinal⟩
        intro s hs
        rw [hsaves] at hs
        simp only [List.cons_append, List.nil_append, List.mem_cons,
          List.not_mem_nil, or_false] at hs
        rcases hs with rfl | rfl
        · omega
        · exact hfinal

/-- C7: if the loaded document has at most one item in state `doing`, then every
document state the harness loop persists also has at most one item in state
`doing`. -/
theorem claim_C7_at_most_one_doing (env : LoopEnv) (maxIter maxFail : Int)
    (nc : Bool) (prd : PRD) (hinv : prd.count_state ItemState.doing ≤ 1) :
    ∀ q ∈ (run_loop true (.ok prd) env maxIter maxFail nc).2,
      q.count_state ItemState.doing ≤ 1 := by
  show ∀ q ∈ (run_loop_aux env maxIter maxFail nc prd 0 0 []).2,
    q.count_state ItemState.doing ≤ 1
  exact run_loop_aux_saves_pres _
    (fun q a e c n ncc hq => loop_step_preserves_one_doing q a e c n ncc hq)
    env maxIter maxFail nc prd 0 0 [] hinv (by simp)

/-- Witness for C7 at a concrete run: the checkpoint snapshot of a fresh start
has exactly the one new `doing` item. -/
theorem claim_C7_at_most_one_doing_witness :
    (markDoing prdOneTodoW 0).count_state ItemState.doing ≤ 1 :=
  claim_C7_at_most_one_doing envOk 1 5 false prdOneTodoW (by decide)
    (markDoing prdOneTodoW 0) mark_mem_trace

/-! ### C8: the verification runner -/

theorem run_verification_foldl (ex : String → ExecOutcome) (commands : List String)
    (b : Bool) (rs : List CmdResult) :
    commands.foldl
        (fun acc cmd =>
          let r := verifyStep ex cmd
          (acc.1 && r.passed, acc.2 ++ [r]))
        (b, rs) =
      (b && (commands.map (verifyStep ex)).all (fun r => r.passed),
       rs ++ commands.map (verifyStep ex)) := by
  induction commands generalizing b rs with
  | nil => simp
  | cons cmd rest ih =>
      simp only [List.foldl_cons, List.map_cons, List.all_cons]
      rw [ih]
      simp [Bool.and_assoc]

/-- C8: `run_verification` produces one result per command, in order, computed
independently of the other commands (so every command runs regardless of
earlier failures); its aggregate boolean is the AND of the per-command pass
flags; and a command whose execution raises is recorded as failed with return
code `-1` and the exception text as stderr. -/
theorem claim_C8_run_verification (ex : String → ExecOutcome)
    (commands : List String) :
    (run_verification ex commands).2 = commands.map (verifyStep ex) ∧
    (run_verification ex commands).1 =
      (commands.map (verifyStep ex)).all (fun r => r.passed) ∧
    (∀ cmd msg, ex cmd = .exn msg →
      verifyStep ex cmd = { command := cmd, passed := false, returncode := -1,
                            stdout := "", stderr := msg }) := by
  refine ⟨?_, ?_, ?_⟩
  · rw [run_verification, run_verification_foldl]
    simp
  · rw [run_verification, run_verification_foldl]
    simp
  · intro cmd msg h
    rw [verifyStep, h]

/-- Witness for C8: on a concrete oracle, the command that raises is recorded
as failed with return code `-1` and the exception text as stderr. -/
theorem claim_C8_run_verification_witness :
    verifyStep exW "missing" =
      { command := "missing", passed := false, returncode := -1,
        stdout := "", stderr := "not found" } :=
  (claim_C8_run_verification exW ["false", "missing"]).2.2 "missing" "not found"
    (by decide)

/-! ### C9: commit failures are harmless -/

/-- C9: in a pass whose verification passes, with commits enabled
(`no_commit = false`), the outcome of the commit collaborator has no effect on
the document, the snapshots, the failure counter, or the control flow: the item
ends `done` with `done_at` stamped and `last_error` cleared, already persisted
(last snapshot), `failures` is not incremented, and the only trace of the
commit outcome is the reported `commitResult`. -/
theorem claim_C9_commit_failure_harmless (prd : PRD) (agent : Bool × String)
    (ex : String → ExecOutcome) (now : Nat) (i : Nat) (r : Bool) (x : WorkItem)
    (hsel : prd.next_idx = some (i, r)) (hag : agent.1 = true)
    (hx : prd.items.get? i = some x)
    (hpass : (effectiveVerify ((if r then prd else markDoing prd i).items.getD i
        { id := "" }) (if r then prd else markDoing prd i).global_config).isEmpty
          = true ∨
      (run_verification ex (effectiveVerify
        ((if r then prd else markDoing prd i).items.getD i { id := "" })
        (if r then prd else markDoing prd i).global_config)).1 = true) :
    ∀ commit : Bool,
      (loop_step prd agent ex commit now false).failed = false ∧
      (loop_step prd agent ex commit now false).result = none ∧
      (loop_step prd agent ex commit now false).prd =
        (loop_step prd agent ex true now false).prd ∧
      (loop_step prd agent ex commit now false).saves =
        (loop_step prd agent ex true now false).saves ∧
      (loop_step prd agent ex commit now false).commitResult = some commit ∧
      (loop_step prd agent ex commit now false).saves.getLast? =
        some (loop_step prd agent ex commit now false).prd ∧
      ∃ y, (loop_step prd agent ex commit now false).prd.items.get? i = some y ∧
        y.status.state = ItemState.done ∧ y.status.done_at = some now ∧
        y.status.last_error = none := by
  intro commit
  cases r with
  | true =>
      simp only [eq_self_iff_true, if_true] at hpass
      rw [loop_step_resuming prd agent ex commit now false i hsel,
        loop_step_resuming prd agent ex true now false i hsel]
      simp only [hag, Bool.not_true, Bool.false_eq_true, if_false]
      have hvr : (if (effectiveVerify (prd.items.getD i { id := "" })
          prd.global_config).isEmpty = true then (true, ([] : List CmdResult))
          else run_verification ex
            (effectiveVerify (prd.items.getD i { id := "" }) prd.global_config)).1
            = true := by
        cases he : (effectiveVerify (prd.items.getD i { id := "" })
            prd.global_config).isEmpty with
        | true => rfl
        | false =>
            rw [if_neg (by simp [he])]
            rcases hpass with h | h
            · rw [he] at h; simp at h
            · exact h
      rw [if_pos hvr, if_pos hvr]
      refine ⟨rfl, rfl, rfl, rfl, rfl, rfl,
        ⟨{ x with status := doneItemStatus now x.status }, ?_, rfl, rfl, rfl⟩⟩
      show (setItemStatus prd i (doneItemStatus now)).items.get? i = _
      rw [setItemStatus_get?_same, hx]
      rfl
  | false =>
      simp only [Bool.false_eq_true, if_false] at hpass
      rw [loop_step_fresh prd agent ex commit now false i hsel,
        loop_step_fresh prd agent ex true now false i hsel]
      simp only [hag, Bool.not_true, Bool.false_eq_true, if_false]
      have hvr : (if (effectiveVerify ((markDoing prd i).items.getD i { id := "" })
          (markDoing prd i).global_config).isEmpty = true
          then (true, ([] : List CmdResult))
          else run_verification ex
            (effectiveVerify ((markDoing prd i).items.getD i { id := "" })
              (markDoing prd i).global_config)).1 = true := by
        cases he : (effectiveVerify ((markDoing prd i).items.getD i { id := "" })
            (markDoing prd i).global_config).isEmpty with
        | true => rfl
        | false =>
            rw [if_neg (by simp [he])]
            rcases hpass with h | h
            · rw [he] at h; simp at h
            · exact h
      rw [if_pos hvr, if_pos hvr]
      have hmark_get := markDoing_get?_same prd i x hx
      refine ⟨rfl, rfl, rfl, rfl, rfl, rfl,
        ⟨{ x with status := doneItemStatus now { x.status with state := ItemState.doing, attempts := x.status.attempts + 1 } },
          ?_, rfl, rfl, rfl⟩⟩
      show (setItemStatus (markDoing prd i) i (doneItemStatus now)).items.get? i = _
      rw [setItemStatus_get?_same, hmark_get]
      rfl

/-- Witness for C9: concrete pass with an empty effective verification list and
a failing commit collaborator (`commit = false`). -/
theorem claim_C9_commit_failure_harmless_witness :
    (loop_step prdOneTodoW (true, "") (fun _ => .ok 0 "" "") false 7 false).failed
      = false ∧
    (loop_step prdOneTodoW (true, "") (fun _ => .ok 0 "" "") false 7 false).result
      = none ∧
    (loop_step prdOneTodoW (true, "") (fun _ => .ok 0 "" "") false 7 false).prd =
      (loop_step prdOneTodoW (true, "") (fun _ => .ok 0 "" "") true 7 false).prd ∧
    (loop_step prdOneTodoW (true, "") (fun _ => .ok 0 "" "") false 7 false).saves =
      (loop_step prdOneTodoW (true, "") (fun _ => .ok 0 "" "") true 7 false).saves ∧
    (loop_step prdOneTodoW (true, "") (fun _ => .ok 0 "" "") false 7 false).commitResult
      = some false ∧
    (loop_step prdOneTodoW (true, "") (fun _ => .ok 0 "" "") false 7 false).saves.getLast?
      = some (loop_step prdOneTodoW (true, "") (fun _ => .ok 0 "" "") false 7 false).prd ∧
    ∃ y, (loop_step prdOneTodoW (true, "") (fun _ => .ok 0 "" "") false 7
        false).prd.items.get? 0 = some y ∧
      y.status.state = ItemState.done ∧ y.status.done_at = some 7 ∧
      y.status.last_error = none :=
  claim_C9_commit_failure_harmless prdOneTodoW (true, "") (fun _ => .ok 0 "" "")
    7 0 false { id := "a" } (by decide) rfl (by decide) (Or.inl (by decide)) false

/-! ### C2: termination when no actionable item remains -/

/-- Counterexample to C2: a document whose only item is `blocked` has no `doing`
and no `todo` item and a nonzero blocked count, yet `run_loop` exits with code
0 (the all-done check, which counts `blocked` as resolved, fires before the
blocked-sensitive branch). The claim predicts exit code 1 here. -/
theorem claim_C2_counterexample :
    (∀ it ∈ prdBlockedW.items, isDoing it = false ∧ isTodo it = false) ∧
    prdBlockedW.count_state ItemState.blocked ≠ 0 ∧
    (run_loop true (.ok prdBlockedW) envOk 50 10 false).1 = 0 := by
  refine ⟨by decide, by decide, ?_⟩
  show (run_loop_aux envOk 50 10 false prdBlockedW 0 0 []).1 = 0
  rw [run_loop_aux]
  simp [loop_step, PRD.all_done, prdBlockedW, projW]

/-- C2 (amended): if at the start of a loop iteration the reloaded document
contains no `doing` and no `todo` item, `run_loop` terminates with exit code 0
whether or not any item is `blocked`: every item is then `done` or `blocked`,
so the all-done check returns 0 and the blocked-sensitive no-item branch is
never reached. -/
theorem claim_C2_amended_no_actionable_exit (env : LoopEnv) (maxIter maxFail : Int)
    (nc : Bool) (prd : PRD) (iteration failures : Int) (saves : List PRD)
    (hno : ∀ it ∈ prd.items, isDoing it = false ∧ isTodo it = false)
    (hguard : iteration < maxIter ∧ failures < maxFail) :
    run_loop_aux env maxIter maxFail nc prd iteration failures saves = (0, saves) := by
  have hdone : prd.all_done = true := by
    rw [PRD.all_done, List.all_eq_true]
    intro it hit
    obtain ⟨h1, h2⟩ := hno it hit
    simp only [isDoing] at h1
    simp only [isTodo] at h2
    cases hs : it.status.state <;> simp_all
  rw [run_loop_aux, dif_pos hguard]
  simp [loop_step, hdone]

/-- Witness for the amended C2 on the concrete all-blocked document. -/
theorem claim_C2_amended_witness :
    run_loop_aux envOk 50 10 false prdBlockedW 0 0 [] = (0, []) :=
  claim_C2_amended_no_actionable_exit envOk 50 10 false prdBlockedW 0 0 []
    (by decide) (by norm_num)

/-! ### C5: exit signalling of the two budget stops -/

/-- Counterexample to C5: a run stopped by the failure budget (`max_failures`
reached after one agent failure, iterations remaining) and a run stopped by the
iteration budget (`max_iterations` reached, failure budget remaining) both
return exit code 1 — the process exit code cannot tell the two causes apart. -/
theorem claim_C5_counterexample :
    (run_loop true (.ok prdOneTodoW) envAgentFail 50 1 false).1 = 1 ∧
    (run_loop true (.ok prdOneTodoW) envAgentFail 1 10 false).1 = 1 := by
  constructor
  · show (run_loop_aux envAgentFail 50 1 false prdOneTodoW 0 0 []).1 = 1
    rw [run_loop_aux]
    simp [loop_step, PRD.all_done, PRD.next_idx, findFirst, prdOneTodoW, projW,
      isDoing, isTodo, envAgentFail, setItemStatus, modifyIdx, failItemStatus,
      BLOCKED_THRESHOLD, pyTake, markDoing, failStep, succeedStep]
    rw [run_loop_aux]
    simp [run_loop_post]
  · show (run_loop_aux envAgentFail 1 10 false prdOneTodoW 0 0 []).1 = 1
    rw [run_loop_aux]
    simp [loop_step, PRD.all_done, PRD.next_idx, findFirst, prdOneTodoW, projW,
      isDoing, isTodo, envAgentFail, setItemStatus, modifyIdx, failItemStatus,
      BLOCKED_THRESHOLD, pyTake, markDoing, failStep, succeedStep]
    rw [run_loop_aux]
    simp [run_loop_post]

/-- C5 (amended): both terminal budget causes — failure budget spent or
iteration budget spent — make the post-loop code return the same exit code 1;
the cause is signalled only in console/progress-log messages, not in the exit
code. -/
theorem claim_C5_amended_same_exit_code (maxIter maxFail iteration failures : Int)
    (h : failures ≥ maxFail ∨ iteration ≥ maxIter) :
    run_loop_post maxIter maxFail iteration failures = 1 := by
  rw [run_loop_post]
  rcases h with h | h
  · rw [if_pos h]
  · by_cases h2 : failures ≥ maxFail
    · rw [if_pos h2]
    · rw [if_neg h2, if_pos h]

/-- Witness for the amended C5 at concrete budget values. -/
theorem claim_C5_amended_witness : run_loop_post 1 10 1 1 = 1 :=
  claim_C5_amended_same_exit_code 1 10 1 1 (Or.inr (by norm_num))

/-! ### C10: nonpositive budgets -/

/-- C10: with the structural preconditions satisfied (git repository present,
document loaded), `max_iterations <= 0` or `max_failures <= 0` makes `run_loop`
return exit code 1 immediately with an empty persisted-snapshot trace — the
loop body never runs, so nothing is selected or mutated, and the all-done
success path is never reached even if every item is `done`. -/
theorem claim_C10_nonpositive_budgets (prd : PRD) (env : LoopEnv)
    (maxIter maxFail : Int) (nc : Bool) (h : maxIter ≤ 0 ∨ maxFail ≤ 0) :
    run_loop true (.ok prd) env maxIter maxFail nc = (1, []) := by
  show run_loop_aux env maxIter maxFail nc prd 0 0 [] = (1, [])
  rw [run_loop_aux, dif_neg (by omega)]
  rw [run_loop_post]
  split_ifs with h1 h2
  · rfl
  · rfl
  · omega

/-- Witness for C10: an all-done document with `max_iterations = 0` still exits
with code 1, not through the all-done success path. -/
theorem claim_C10_nonpositive_budgets_witness :
    run_loop true (.ok prdAllDoneW) envOk 0 10 false = (1, []) :=
  claim_C10_nonpositive_budgets prdAllDoneW envOk 0 10 false (Or.inl (by norm_num))

end Ralph
